import Mathlib

/-!
# MedGenie backend: a shallow embedding of `app/main.py`

This file embeds the request handlers of the MedGenie FastAPI service
(`clean_text`, `generate_summary`, `read_root`, `create_summary`,
`update_diagnosis`, `get_patient_history`) as pure Lean functions over an
explicit store state, and proves properties of them.

Modelling conventions:
* Python strings are Lean `String`s; `text[:200]` slices by code points, which
  matches `List.take` on `String.data`.
* The Firestore document store is an association list `Store` of
  `(document id, VisitRecord)` pairs; ids are unique keys (Firestore assigns
  fresh ids), lookup/update act on the first matching key.
* External capabilities (the BART summarization pipeline, the store
  connectivity probe) are parameters of type `Except String _`: `.error e`
  models a raised exception with text `e`.
* `firestore.SERVER_TIMESTAMP` is an abstract `Nat` supplied by the
  environment; `datetime.datetime.now().isoformat()` is an abstract `String`.
* A raised `HTTPException(status_code, detail)` is `Except.error` of an
  `ErrResp`; a returned JSON body is the `Except.ok` side.
-/

/-- One whitespace step of Python `str.split()` with no arguments: the
characters Python treats as whitespace, restricted to the ASCII range
(space, tab, newline, carriage return, vertical tab, form feed). -/
def isPySpace (c : Char) : Bool :=
  c = ' ' || c = '\t' || c = '\n' || c = '\r' || c = '\x0b' || c = '\x0c'

/-- Fuelled worker for `replaceAll`: Python `str.replace(pat, '')`, removing
occurrences of `pat` left to right, non-overlapping, in a single pass.
The fuel argument only serves structural termination; `replaceAll` always
supplies enough fuel (one unit per character of the subject string). -/
def replaceAllF (pat : List Char) : Nat → List Char → List Char
  | 0, l => l
  | _ + 1, [] => []
  | n + 1, c :: cs =>
    if !pat.isEmpty && pat.isPrefixOf (c :: cs) then
      replaceAllF pat n (List.drop (pat.length - 1) cs)
    else
      c :: replaceAllF pat n cs

/-- Python `subject.replace(pat, '')` for a non-empty pattern `pat`. -/
def replaceAll (pat subject : List Char) : List Char :=
  replaceAllF pat subject.length subject

/-- Python `str.split()` with no arguments: split on runs of whitespace,
dropping empty fragments.  `acc` holds the (reversed) current word. -/
def splitWs : List Char → List Char → List (List Char)
  | acc, [] => if acc.isEmpty then [] else [acc.reverse]
  | acc, c :: cs =>
    if isPySpace c then
      (if acc.isEmpty then [] else [acc.reverse]) ++ splitWs [] cs
    else
      splitWs (c :: acc) cs

/-- Python `' '.join(words)`. -/
def joinWords : List (List Char) → List Char
  | [] => []
  | [w] => w
  | w :: x :: ws => w ++ ' ' :: joinWords (x :: ws)

/-- `clean_text` from `app/main.py`: remove the four artifact markers in the
source's order (`[CLS]`, `[SEP]`, `<s>`, `</s>`), each in a single
left-to-right pass, then `' '.join(text.split())`. -/
def clean_text (text : String) : String :=
  String.mk (joinWords (splitWs []
    (replaceAll "</s>".data
      (replaceAll "<s>".data
        (replaceAll "[SEP]".data
          (replaceAll "[CLS]".data text.data))))))

/-- Python slice `s[:n]` (by code points). -/
def pySlice (s : String) (n : Nat) : String :=
  String.mk (s.data.take n)

/-- `generate_summary` from `app/main.py`: call the summarization pipeline
(`summarizer(text, max_length=130, min_length=30, do_sample=False)`, here an
abstract `sm`); on success return `clean_text` of the model output, on any
exception swallow it and fall back to `text[:200] + "..."` (the fallback is
returned as-is, without `clean_text`). -/
def generate_summary (sm : String → Except String String) (text : String) : String :=
  match sm text with
  | Except.ok s => clean_text s
  | Except.error _ => pySlice text 200 ++ "..."

/-- The persisted Firestore document (`doc_data` in `create_summary`, plus the
fields written by `update_diagnosis`).  `updated_at` is absent until the first
diagnosis update. -/
structure VisitRecord where
  original_text : String
  summary : String
  patient_id : String
  visit_date : String
  timestamp : Nat
  diagnosis : String
  status : String
  updated_at : Option Nat
deriving Repr, DecidableEq

/-- The `summaries` collection: association list of (document id, record). -/
abbrev Store := List (String × VisitRecord)

/-- Firestore `collection.document(id).get()`: the record stored under `id`,
if any. -/
def lookupStore : Store → String → Option VisitRecord
  | [], _ => none
  | (i, r) :: rest, id => if i = id then some r else lookupStore rest id

/-- Firestore `doc_ref.update(...)` on the (unique) document keyed `id`:
rewrite its record by `f`, leave every other entry alone. -/
def updateStore : Store → String → (VisitRecord → VisitRecord) → Store
  | [], _, _ => []
  | (i, r) :: rest, id, f =>
    if i = id then (i, f r) :: rest else (i, r) :: updateStore rest id f

/-- The process environment: the loaded summarization pipeline, the current
wall-clock time (`datetime.datetime.now().isoformat()`), the value Firestore
substitutes for `SERVER_TIMESTAMP`, and the fresh document id the store
assigns on the next insert. -/
structure Env where
  summarizer : String → Except String String
  now : String
  serverTimestamp : Nat
  freshId : String

/-- Request body of `POST /summarize`. -/
structure Summary where
  text : String
  patient_id : String
  visit_date : Option String
deriving Repr, DecidableEq

/-- Request body of `POST /update_diagnosis`. -/
structure DiagnosisUpdate where
  document_id : String
  diagnosis : String
  patient_id : String
deriving Repr, DecidableEq

/-- A raised `HTTPException(status_code=..., detail=...)`. -/
structure ErrResp where
  status_code : Nat
  detail : String
deriving Repr, DecidableEq

/-- Success body of `GET /`. -/
structure HealthResp where
  status : String
  message : String
deriving Repr, DecidableEq

/-- Success body of `POST /summarize`. -/
structure CreateResp where
  document_id : String
  summary : String
  status : String
deriving Repr, DecidableEq

/-- Success body of `POST /update_diagnosis`. -/
structure UpdateResp where
  status : String
  document_id : String
  message : String
deriving Repr, DecidableEq

/-- Success body of `GET /patient/{patient_id}/history`: the `message` field
is only present on the empty result, and each entry of `data` is the stored
record augmented with its document id (`data['id'] = doc.id`), modelled as the
`(id, record)` pair. -/
structure HistoryResp where
  status : String
  message : Option String
  data : List (String × VisitRecord)

/-- Python truthiness of `visit_date or datetime.datetime.now().isoformat()`
for `visit_date : Optional[str]`: `None` and the empty string are falsy. -/
def pyOr (v : Option String) (d : String) : String :=
  match v with
  | none => d
  | some s => if s = "" then d else s

/-- `read_root` (`GET /`, the health check): probe the store
(`db.collection('summaries').limit(1).get()`, abstracted to `dbResult`); on
success answer healthy, on any exception answer a 500 whose detail is the
fixed string `"Database connection error"` (the exception text `e` is logged,
never returned). -/
def read_root (dbResult : Except String Unit) : Except ErrResp HealthResp :=
  match dbResult with
  | Except.ok _ => Except.ok { status := "healthy", message := "MedGenie API is running" }
  | Except.error _ => Except.error { status_code := 500, detail := "Database connection error" }

/-- `create_summary` (`POST /summarize`): generate the summary, build
`doc_data` and insert it under the store-assigned fresh id, and answer with
the new id, the summary and a success marker.  Returns the response together
with the post-state of the store. -/
def create_summary (env : Env) (store : Store) (req : Summary) : CreateResp × Store :=
  let summary := generate_summary env.summarizer req.text
  let doc : VisitRecord :=
    { original_text := req.text
      summary := summary
      patient_id := req.patient_id
      visit_date := pyOr req.visit_date env.now
      timestamp := env.serverTimestamp
      diagnosis := ""
      status := "pending_diagnosis"
      updated_at := none }
  ({ document_id := env.freshId, summary := summary, status := "success" },
   store ++ [(env.freshId, doc)])

/-- `applyDiagnosis` is the field update `update_diagnosis` performs on the
target document: `{'diagnosis': ..., 'status': 'completed', 'updated_at':
SERVER_TIMESTAMP}`. -/
def applyDiagnosis (upd : DiagnosisUpdate) (ts : Nat) (r : VisitRecord) : VisitRecord :=
  { r with diagnosis := upd.diagnosis, status := "completed", updated_at := some ts }

/-- `update_diagnosis` (`POST /update_diagnosis`).  When the document is
absent the handler raises `HTTPException(404, "Document not found")` inside
its own `try` block; the blanket `except Exception as e` catches that very
exception and re-raises `HTTPException(500, str(e))`, so the response actually
produced is a 500 whose detail is `str` of the 404 exception
(starlette renders it as `"404: Document not found"`), and the store is
untouched.  When the document exists, its three fields are updated in place
and a success body is returned.  Returns the response with the post-state. -/
def update_diagnosis (ts : Nat) (store : Store) (upd : DiagnosisUpdate) :
    Except ErrResp UpdateResp × Store :=
  match lookupStore store upd.document_id with
  | none =>
    (Except.error { status_code := 500, detail := "404: Document not found" }, store)
  | some _ =>
    (Except.ok
      { status := "success"
        document_id := upd.document_id
        message := "Diagnosis updated successfully" },
     updateStore store upd.document_id (applyDiagnosis upd ts))

/-- Strict code-point comparison of two characters. -/
def charLt (c d : Char) : Bool :=
  decide (c.toNat < d.toNat)

/-- Lexicographic `≤` on strings as sequences of code points — the order
Firestore applies to string fields (UTF-8 byte order, which on the ISO-8601
date strings at hand coincides with code-point order). -/
def strLeB : List Char → List Char → Bool
  | [], _ => true
  | _ :: _, [] => false
  | c :: cs, d :: ds => if c = d then strLeB cs ds else charLt c d

/-- The Firestore ordering `order_by('visit_date', DESCENDING)` as a relation
on store entries: `a` may precede `b` when `b`'s visit date is at most
`a`'s. -/
def histLE (a b : String × VisitRecord) : Prop :=
  strLeB b.2.visit_date.data a.2.visit_date.data = true

instance : DecidableRel histLE := fun a b =>
  inferInstanceAs (Decidable (strLeB b.2.visit_date.data a.2.visit_date.data = true))

theorem charToNat_inj {c d : Char} (h : c.toNat = d.toNat) : c = d := by
  have := congrArg Char.ofNat h
  rwa [Char.ofNat_toNat, Char.ofNat_toNat] at this

theorem strLeB_total : ∀ x y : List Char, strLeB x y = true ∨ strLeB y x = true
  | [], _ => Or.inl rfl
  | _ :: _, [] => Or.inr rfl
  | c :: cs, d :: ds => by
    by_cases hcd : c = d
    · subst hcd
      simpa [strLeB] using strLeB_total cs ds
    · have hdc : d ≠ c := fun h => hcd h.symm
      have hne : c.toNat ≠ d.toNat := fun h => hcd (charToNat_inj h)
      rcases Nat.lt_or_ge c.toNat d.toNat with hlt | hge
      · left
        simp [strLeB, hcd, charLt, hlt]
      · right
        have hlt : d.toNat < c.toNat := lt_of_le_of_ne hge (fun h => hne h.symm)
        simp [strLeB, hdc, charLt, hlt]

theorem strLeB_trans :
    ∀ x y z : List Char, strLeB x y = true → strLeB y z = true → strLeB x z = true
  | [], _, _, _, _ => rfl
  | _ :: _, [], _, hxy, _ => by simp [strLeB] at hxy
  | _ :: _, _ :: _, [], _, hyz => by simp [strLeB] at hyz
  | c :: cs, d :: ds, e :: es, hxy, hyz => by
    by_cases hcd : c = d
    · subst hcd
      rw [strLeB, if_pos rfl] at hxy
      by_cases hde : c = e
      · subst hde
        rw [strLeB, if_pos rfl] at hyz
        rw [strLeB, if_pos rfl]
        exact strLeB_trans cs ds es hxy hyz
      · rw [strLeB, if_neg hde] at hyz
        rw [strLeB, if_neg hde]
        exact hyz
    · rw [strLeB, if_neg hcd] at hxy
      have hlt1 : c.toNat < d.toNat := by simpa [charLt] using hxy
      by_cases hde : d = e
      · subst hde
        have hce : c ≠ d := fun h => absurd (h ▸ hlt1) (lt_irrefl _)
        rw [strLeB, if_neg hce]
        simp [charLt, hlt1]
      · rw [strLeB, if_neg hde] at hyz
        have hlt2 : d.toNat < e.toNat := by simpa [charLt] using hyz
        have hlt : c.toNat < e.toNat := lt_trans hlt1 hlt2
        have hce : c ≠ e := fun h => absurd (h ▸ hlt) (lt_irrefl _)
        rw [strLeB, if_neg hce]
        simp [charLt, hlt]

instance : IsTotal (String × VisitRecord) histLE :=
  ⟨fun a b => strLeB_total b.2.visit_date.data a.2.visit_date.data⟩

instance : IsTrans (String × VisitRecord) histLE :=
  ⟨fun a b c hab hbc =>
    strLeB_trans c.2.visit_date.data b.2.visit_date.data a.2.visit_date.data hbc hab⟩

/-- `get_patient_history` (`GET /patient/{patient_id}/history`): stream the
documents whose `patient_id` equals the path parameter, ordered by
`visit_date` descending, each augmented with its document id; an empty result
is a success with an explanatory message and an empty list. -/
def get_patient_history (store : Store) (pid : String) : HistoryResp :=
  let docs := List.insertionSort histLE
    (List.filter (fun p => p.2.patient_id == pid) store)
  if docs.isEmpty then
    { status := "success", message := some "No records found for this patient", data := [] }
  else
    { status := "success", message := none, data := docs }

/-- No two adjacent whitespace characters. -/
def noWsRun : List Char → Bool
  | a :: b :: rest => (!(isPySpace a && isPySpace b)) && noWsRun (b :: rest)
  | _ => true

/-- Neither the first nor the last character is whitespace. -/
def noEdgeWs (l : List Char) : Bool :=
  (match l.head? with
   | none => true
   | some c => !isPySpace c) &&
  (match l.getLast? with
   | none => true
   | some c => !isPySpace c)

/-- A word produced by `splitWs`: non-empty and free of whitespace. -/
def goodWord (w : List Char) : Prop :=
  w ≠ [] ∧ ∀ c ∈ w, isPySpace c = false

/-- Does `pat` occur as a contiguous substring of `l`? -/
def containsTok (pat : List Char) : List Char → Bool
  | [] => pat.isEmpty
  | c :: cs => pat.isPrefixOf (c :: cs) || containsTok pat cs

theorem splitWs_goodWord :
    ∀ (cs acc : List Char), (∀ c ∈ acc, isPySpace c = false) →
      ∀ w ∈ splitWs acc cs, goodWord w := by
  intro cs
  induction cs with
  | nil =>
    intro acc hacc w hw
    cases acc with
    | nil => simp [splitWs] at hw
    | cons a as =>
      simp [splitWs] at hw
      subst hw
      refine ⟨by simp, ?_⟩
      intro c hc
      rcases List.mem_append.mp hc with h | h
      · exact hacc c (List.mem_cons_of_mem a (List.mem_reverse.mp h))
      · have hca : c = a := by simpa using h
        subst hca
        exact hacc c (by simp)
  | cons c cs ih =>
    intro acc hacc w hw
    by_cases hsp : isPySpace c
    · cases acc with
      | nil =>
        simp [splitWs, hsp] at hw
        exact ih [] (by simp) w hw
      | cons a as =>
        simp [splitWs, hsp] at hw
        rcases hw with hw | hw
        · subst hw
          refine ⟨by simp, ?_⟩
          intro d hd
          rcases List.mem_append.mp hd with h | h
          · exact hacc d (List.mem_cons_of_mem a (List.mem_reverse.mp h))
          · have hda : d = a := by simpa using h
            subst hda
            exact hacc d (by simp)
        · exact ih [] (by simp) w hw
    · have hsp' : isPySpace c = false := by simpa using hsp
      simp [splitWs, hsp'] at hw
      refine ih (c :: acc) ?_ w hw
      intro d hd
      rcases List.mem_cons.mp hd with rfl | hd
      · exact hsp'
      · exact hacc d hd

theorem noWsRun_of_all :
    ∀ l : List Char, (∀ c ∈ l, isPySpace c = false) → noWsRun l = true
  | [], _ => rfl
  | [_], _ => rfl
  | a :: b :: l, h => by
    have ha : isPySpace a = false := h a (by simp)
    have htail := noWsRun_of_all (b :: l) (fun c hc => h c (List.mem_cons_of_mem a hc))
    simp [noWsRun, ha, htail]

theorem noWsRun_append_left :
    ∀ xs ys : List Char, (∀ c ∈ xs, isPySpace c = false) → noWsRun ys = true →
      noWsRun (xs ++ ys) = true := by
  intro xs
  induction xs with
  | nil => intro ys _ hy; simpa using hy
  | cons a xs ih =>
    intro ys hx hy
    have ha : isPySpace a = false := hx a (by simp)
    have htail : noWsRun (xs ++ ys) = true :=
      ih ys (fun c hc => hx c (List.mem_cons_of_mem a hc)) hy
    cases hxy : xs ++ ys with
    | nil =>
      rw [List.cons_append, hxy]
      rfl
    | cons b t =>
      rw [List.cons_append, hxy]
      rw [hxy] at htail
      simp [noWsRun, ha, htail]

theorem mem_of_head? {l : List Char} {c : Char} (h : l.head? = some c) : c ∈ l := by
  cases l with
  | nil => simp at h
  | cons a t => simp at h; subst h; simp

theorem mem_of_getLast? :
    ∀ {l : List Char} {c : Char}, l.getLast? = some c → c ∈ l
  | [], _, h => by simp at h
  | [a], c, h => by simp at h; subst h; simp
  | a :: b :: t, c, h => by
    rw [List.getLast?_cons_cons] at h
    exact List.mem_cons_of_mem a (mem_of_getLast? h)

theorem getLast?_cons_isSome :
    ∀ (a : Char) (l : List Char), ∃ d, (a :: l).getLast? = some d
  | a, [] => ⟨a, rfl⟩
  | _, b :: l => by
    obtain ⟨d, hd⟩ := getLast?_cons_isSome b l
    exact ⟨d, by rw [List.getLast?_cons_cons]; exact hd⟩

theorem joinWords_ne_nil (w : List Char) (ws : List (List Char)) (hw : w ≠ []) :
    joinWords (w :: ws) ≠ [] := by
  cases ws with
  | nil => simpa [joinWords] using hw
  | cons x ws => simp [joinWords]

theorem joinWords_spec :
    ∀ ws : List (List Char), (∀ w ∈ ws, goodWord w) →
      noWsRun (joinWords ws) = true
      ∧ (∀ c, (joinWords ws).head? = some c → isPySpace c = false)
      ∧ (∀ c, (joinWords ws).getLast? = some c → isPySpace c = false)
  | [], _ => by
    refine ⟨rfl, ?_, ?_⟩ <;> intro c hc <;> simp [joinWords] at hc
  | [w], h => by
    have hg : goodWord w := h w (by simp)
    refine ⟨noWsRun_of_all w hg.2, ?_, ?_⟩
    · intro c hc
      exact hg.2 c (mem_of_head? (by simpa [joinWords] using hc))
    · intro c hc
      exact hg.2 c (mem_of_getLast? (by simpa [joinWords] using hc))
  | w :: x :: ws, h => by
    have hgw : goodWord w := h w (by simp)
    have hgx : goodWord x := h x (by simp)
    have ih := joinWords_spec (x :: ws) (fun u hu => h u (List.mem_cons_of_mem w hu))
    obtain ⟨ihrun, ihhead, ihlast⟩ := ih
    have hJne : joinWords (x :: ws) ≠ [] := joinWords_ne_nil x ws hgx.1
    have hJsp : noWsRun (' ' :: joinWords (x :: ws)) = true := by
      cases hJ : joinWords (x :: ws) with
      | nil => rfl
      | cons b t =>
        have hb : isPySpace b = false := ihhead b (by simp [hJ])
        have ht : noWsRun (b :: t) = true := by rw [← hJ]; exact ihrun
        simp [noWsRun, hb, ht]
    refine ⟨?_, ?_, ?_⟩
    · show noWsRun (w ++ ' ' :: joinWords (x :: ws)) = true
      exact noWsRun_append_left w (' ' :: joinWords (x :: ws)) hgw.2 hJsp
    · intro c hc
      show isPySpace c = false
      have : (w ++ ' ' :: joinWords (x :: ws)).head? = some c := hc
      rw [List.head?_append] at this
      cases hw : w with
      | nil => exact absurd hw hgw.1
      | cons a t =>
        rw [hw] at this
        simp at this
        subst this
        exact hgw.2 a (by simp [hw])
    · intro c hc
      have hc' : (w ++ ' ' :: joinWords (x :: ws)).getLast? = some c := hc
      rw [List.getLast?_append] at hc'
      obtain ⟨d, hd⟩ := getLast?_cons_isSome ' ' (joinWords (x :: ws))
      rw [hd] at hc'
      simp at hc'
      subst hc'
      cases hJ : joinWords (x :: ws) with
      | nil => exact absurd hJ hJne
      | cons b t =>
        rw [hJ, List.getLast?_cons_cons] at hd
        exact ihlast d (by rw [hJ]; exact hd)

theorem lookupStore_updateStore_self :
    ∀ (s : Store) (id : String) (f : VisitRecord → VisitRecord) (r : VisitRecord),
      lookupStore s id = some r → lookupStore (updateStore s id f) id = some (f r)
  | [], _, _, _, h => by simp [lookupStore] at h
  | (i, q) :: rest, id, f, r, h => by
    by_cases hi : i = id
    · rw [lookupStore, if_pos hi] at h
      rw [updateStore, if_pos hi, lookupStore, if_pos hi]
      rw [Option.some_inj] at h
      rw [h]
    · rw [lookupStore, if_neg hi] at h
      rw [updateStore, if_neg hi, lookupStore, if_neg hi]
      exact lookupStore_updateStore_self rest id f r h

theorem lookupStore_updateStore_other :
    ∀ (s : Store) (id other : String) (f : VisitRecord → VisitRecord),
      other ≠ id → lookupStore (updateStore s id f) other = lookupStore s other
  | [], _, _, _, _ => rfl
  | (i, q) :: rest, id, other, f, hne => by
    by_cases hi : i = id
    · have hio : i ≠ other := by rw [hi]; exact fun h => hne h.symm
      rw [updateStore, if_pos hi, lookupStore, if_neg hio, lookupStore, if_neg hio]
    · rw [updateStore, if_neg hi, lookupStore, lookupStore]
      by_cases hio : i = other
      · rw [if_pos hio, if_pos hio]
      · rw [if_neg hio, if_neg hio]
        exact lookupStore_updateStore_other rest id other f hne

theorem mem_updateStore :
    ∀ {p : String × VisitRecord} {s : Store} {id : String} {f : VisitRecord → VisitRecord},
      p ∈ updateStore s id f → p ∈ s ∨ ∃ q ∈ s, p = (q.1, f q.2)
  | p, [], id, f, h => by simp [updateStore] at h
  | p, (i, q) :: rest, id, f, h => by
    by_cases hi : i = id
    · rw [updateStore, if_pos hi] at h
      rcases List.mem_cons.mp h with h | h
      · exact Or.inr ⟨(i, q), by simp, h⟩
      · exact Or.inl (List.mem_cons_of_mem _ h)
    · rw [updateStore, if_neg hi] at h
      rcases List.mem_cons.mp h with h | h
      · exact Or.inl (h ▸ List.mem_cons_self _ _)
      · rcases mem_updateStore h with h | ⟨u, hu, hp⟩
        · exact Or.inl (List.mem_cons_of_mem _ h)
        · exact Or.inr ⟨u, List.mem_cons_of_mem _ hu, hp⟩

/-- The store states reachable through the service's own operations, starting
from an empty collection: `POST /summarize` inserts, `POST /update_diagnosis`
mutates, and the two `GET` endpoints never write. -/
inductive Reachable : Store → Prop
  | init : Reachable []
  | create (env : Env) (req : Summary) {s : Store} :
      Reachable s → Reachable (create_summary env s req).2
  | update (ts : Nat) (upd : DiagnosisUpdate) {s : Store} :
      Reachable s → Reachable (update_diagnosis ts s upd).2

/-- C3 (amended): `clean_text` is a total function and for every input string
the output contains no run of two or more whitespace characters and no
leading or trailing whitespace.  (The claim's further guarantee that no
artifact marker survives is refuted by `C3_marker_counterexample`: the four
removals are single left-to-right passes performed in a fixed order, so
overlapping occurrences can reconstitute a marker.) -/
theorem C3_clean_text_whitespace (s : String) :
    noWsRun (clean_text s).data = true ∧ noEdgeWs (clean_text s).data = true := by
  unfold clean_text
  set x := replaceAll "</s>".data
    (replaceAll "<s>".data
      (replaceAll "[SEP]".data
        (replaceAll "[CLS]".data s.data))) with hx
  have hgood : ∀ w ∈ splitWs [] x, goodWord w :=
    splitWs_goodWord x [] (by simp)
  obtain ⟨hrun, hhead, hlast⟩ := joinWords_spec (splitWs [] x) hgood
  have hdata : (String.mk (joinWords (splitWs [] x))).data = joinWords (splitWs [] x) := rfl
  rw [hdata]
  refine ⟨hrun, ?_⟩
  unfold noEdgeWs
  cases hh : (joinWords (splitWs [] x)).head? with
  | none =>
    cases hl : (joinWords (splitWs [] x)).getLast? with
    | none => rfl
    | some d => simp [hlast d hl]
  | some c =>
    cases hl : (joinWords (splitWs [] x)).getLast? with
    | none => simp [hhead c hh]
    | some d => simp [hhead c hh, hlast d hl]

/-- C3 counterexample: on input `"[C[CLS]LS]"` the single-pass removal of the
inner `[CLS]` splices the surrounding fragments into a fresh `[CLS]`, so the
output of `clean_text` still contains an artifact marker, refuting the
claim's "output contains no occurrence of any of the four markers". -/
theorem C3_marker_counterexample :
    clean_text "[C[CLS]LS]" = "[CLS]"
    ∧ containsTok "[CLS]".data (clean_text "[C[CLS]LS]").data = true := by
  constructor
  · decide
  · decide

/-- C2 (amended): when the summarization capability fails, `generate_summary`
swallows the failure and returns the first 200 characters of the input text
suffixed with `"..."` verbatim — the normalizer is NOT applied to the
fallback text (only to model-generated text). -/
theorem C2_fallback_truncation (sm : String → Except String String) (text err : String)
    (h : sm text = Except.error err) :
    generate_summary sm text = pySlice text 200 ++ "..." := by
  unfold generate_summary
  rw [h]

theorem C2_fallback_truncation_witness :
    (fun _ : String => (Except.error "boom" : Except String String)) "hello"
        = Except.error "boom"
    ∧ generate_summary (fun _ : String => (Except.error "boom" : Except String String)) "hello"
        = pySlice "hello" 200 ++ "..." :=
  ⟨rfl, C2_fallback_truncation (fun _ => Except.error "boom") "hello" "boom" rfl⟩

/-- C2 counterexample: with a failing summarizer and input `"a  b"` (double
space) the fallback summary is returned as `"a  b..."`, while the claimed
normalized fallback would be `"a b..."`; the returned value both differs from
the claimed one and contains a whitespace run. -/
theorem C2_fallback_not_normalized_counterexample :
    generate_summary (fun _ : String => (Except.error "model failure" : Except String String))
        "a  b" = "a  b..."
    ∧ clean_text (pySlice "a  b" 200 ++ "...") = "a b..."
    ∧ noWsRun (generate_summary
        (fun _ : String => (Except.error "model failure" : Except String String)) "a  b").data
        = false := by
  refine ⟨by decide, by decide, by decide⟩

/-- C8 (confirmed): whatever exception text `e` the store probe raises, the
health check answers the generic 500 with the fixed detail string
`"Database connection error"`; the response is a constant function of `e`, so
the underlying exception text never reaches the client and the exception does
not escape uncaught. -/
theorem C8_health_check_fixed_500 (e : String) :
    read_root (Except.error e) =
      Except.error { status_code := 500, detail := "Database connection error" } := rfl

/-- C9 (confirmed): `update_diagnosis` never reads the submitted `patient_id`;
two requests agreeing on `document_id` and `diagnosis` but differing in
`patient_id`, run against the same store, produce identical responses and
identical post-states. -/
theorem C9_patient_id_no_influence (ts : Nat) (store : Store)
    (did diag pid1 pid2 : String) :
    update_diagnosis ts store
        { document_id := did, diagnosis := diag, patient_id := pid1 } =
      update_diagnosis ts store
        { document_id := did, diagnosis := diag, patient_id := pid2 } := rfl

/-- C10 (confirmed): a present-but-empty `visit_date` is falsy in the
handler's `visit_date or datetime.datetime.now().isoformat()`, so the request
behaves exactly like one with `visit_date` absent: the whole outcome
coincides, and the record actually inserted carries the server's current time
as its `visit_date` — the empty string is never stored. -/
theorem C10_empty_visit_date_defaults_to_now (env : Env) (store : Store)
    (text pid : String) :
    create_summary env store { text := text, patient_id := pid, visit_date := some "" } =
      create_summary env store { text := text, patient_id := pid, visit_date := none }
    ∧ ((create_summary env store
          { text := text, patient_id := pid, visit_date := some "" }).2.getLast?.map
        (fun p => p.2.visit_date)) = some env.now := by
  constructor
  · unfold create_summary
    simp [pyOr]
  · unfold create_summary
    simp [pyOr, List.getLast?_concat]

/-- C1 (actual behaviour, against the claim): on an unknown `document_id` the
handler's own `raise HTTPException(404, "Document not found")` is caught by
the surrounding `except Exception as e` and re-raised as
`HTTPException(500, str(e))`, so the request fails with a GENERIC 500 — not
the claimed distinct 404 — while the store is indeed left unchanged. -/
theorem C1_unknown_id_yields_500 (ts : Nat) (store : Store) (upd : DiagnosisUpdate)
    (h : lookupStore store upd.document_id = none) :
    update_diagnosis ts store upd =
      (Except.error { status_code := 500, detail := "404: Document not found" }, store) := by
  unfold update_diagnosis
  rw [h]

theorem C1_unknown_id_yields_500_witness :
    lookupStore [] "missing" = none
    ∧ update_diagnosis 7 []
        { document_id := "missing", diagnosis := "flu", patient_id := "p1" } =
      (Except.error { status_code := 500, detail := "404: Document not found" }, []) :=
  ⟨rfl, C1_unknown_id_yields_500 7 []
    { document_id := "missing", diagnosis := "flu", patient_id := "p1" } rfl⟩

/-- C4 (amended): every create-summary request inserts exactly one record at
the store-assigned fresh id, with `original_text` the request text verbatim,
`status` `"pending_diagnosis"`, an empty `diagnosis`, and `summary` the output
of the summarization path: `clean_text` of the model output when the model
succeeds, or the RAW first-200-characters-plus-ellipsis fallback (no
normalizer) when it fails. -/
theorem C4_create_inserts_record (env : Env) (store : Store) (req : Summary) :
    (create_summary env store req).2 =
      store ++ [(env.freshId,
        { original_text := req.text
          summary :=
            match env.summarizer req.text with
            | Except.ok s => clean_text s
            | Except.error _ => pySlice req.text 200 ++ "..."
          patient_id := req.patient_id
          visit_date := pyOr req.visit_date env.now
          timestamp := env.serverTimestamp
          diagnosis := ""
          status := "pending_diagnosis"
          updated_at := none })] := rfl

/-- A concrete environment whose summarization capability always fails. -/
def envFail : Env :=
  { summarizer := fun _ => Except.error "model failure"
    now := "2024-05-01T09:00:00"
    serverTimestamp := 11
    freshId := "d1" }

/-- A create-summary request whose text contains a whitespace run. -/
def reqWs : Summary :=
  { text := "a  b", patient_id := "p1", visit_date := none }

/-- C4 counterexample: under a failing summarizer the record stored for the
text `"a  b"` has summary `"a  b..."`, which is not the normalized output of
the summarization path — the normalizer would have produced `"a b..."`. -/
theorem C4_summary_not_normalized_counterexample :
    ((create_summary envFail [] reqWs).2.map (fun p => p.2.summary)) = ["a  b..."]
    ∧ clean_text (pySlice "a  b" 200 ++ "...") = "a b..."
    ∧ ("a  b..." : String) ≠ "a b..." := by
  refine ⟨by decide, by decide, by decide⟩

/-- C5 (confirmed): an update-diagnosis request on an existing id succeeds,
rewrites exactly the target record — afterwards its `diagnosis` is the
submitted string, its `status` is `"completed"`, its `updated_at` is set to
the server timestamp, and its `id`, `original_text`, `summary`, `patient_id`,
`visit_date` and `timestamp` are untouched — and every record stored under
any other id is unchanged. -/
theorem C5_update_known_id (ts : Nat) (store : Store) (upd : DiagnosisUpdate)
    (rec : VisitRecord) (h : lookupStore store upd.document_id = some rec) :
    (update_diagnosis ts store upd).1 =
      Except.ok { status := "success", document_id := upd.document_id,
                  message := "Diagnosis updated successfully" }
    ∧ lookupStore (update_diagnosis ts store upd).2 upd.document_id =
        some { original_text := rec.original_text
               summary := rec.summary
               patient_id := rec.patient_id
               visit_date := rec.visit_date
               timestamp := rec.timestamp
               diagnosis := upd.diagnosis
               status := "completed"
               updated_at := some ts }
    ∧ ∀ other : String, other ≠ upd.document_id →
        lookupStore (update_diagnosis ts store upd).2 other = lookupStore store other := by
  refine ⟨?_, ?_, ?_⟩
  · unfold update_diagnosis
    rw [h]
  · unfold update_diagnosis
    rw [h]
    show lookupStore (updateStore store upd.document_id (applyDiagnosis upd ts))
        upd.document_id = _
    rw [lookupStore_updateStore_self store upd.document_id (applyDiagnosis upd ts) rec h]
    rfl
  · intro other hne
    unfold update_diagnosis
    rw [h]
    exact lookupStore_updateStore_other store upd.document_id other _ hne

/-- A concrete stored record used by witnesses. -/
def rec0 : VisitRecord :=
  { original_text := "patient complains of cough"
    summary := "cough"
    patient_id := "p1"
    visit_date := "2024-01-01"
    timestamp := 5
    diagnosis := ""
    status := "pending_diagnosis"
    updated_at := none }

/-- A concrete diagnosis update targeting `rec0`. -/
def upd0 : DiagnosisUpdate :=
  { document_id := "d1", diagnosis := "bronchitis", patient_id := "p9" }

theorem C5_update_known_id_witness :
    lookupStore [("d1", rec0)] upd0.document_id = some rec0
    ∧ ((update_diagnosis 7 [("d1", rec0)] upd0).1 =
        Except.ok { status := "success", document_id := upd0.document_id,
                    message := "Diagnosis updated successfully" }
      ∧ lookupStore (update_diagnosis 7 [("d1", rec0)] upd0).2 upd0.document_id =
          some { original_text := rec0.original_text
                 summary := rec0.summary
                 patient_id := rec0.patient_id
                 visit_date := rec0.visit_date
                 timestamp := rec0.timestamp
                 diagnosis := upd0.diagnosis
                 status := "completed"
                 updated_at := some 7 }
      ∧ ∀ other : String, other ≠ upd0.document_id →
          lookupStore (update_diagnosis 7 [("d1", rec0)] upd0).2 other =
            lookupStore [("d1", rec0)] other) :=
  ⟨by decide, C5_update_known_id 7 [("d1", rec0)] upd0 rec0 (by decide)⟩

/-- C6 (confirmed): for every patient identifier the history endpoint answers
with a success status; its `data` is a permutation of exactly the store
entries whose `patient_id` matches (each entry carrying its document id),
arranged in `visit_date`-descending order; and when no record matches it
answers success with the explicit empty-result message and an empty list —
never an error. -/
theorem C6_patient_history (store : Store) (pid : String) :
    (get_patient_history store pid).status = "success"
    ∧ ((get_patient_history store pid).data).Perm
        (List.filter (fun p => p.2.patient_id == pid) store)
    ∧ List.Sorted histLE (get_patient_history store pid).data
    ∧ (List.filter (fun p => p.2.patient_id == pid) store = [] →
        (get_patient_history store pid).message = some "No records found for this patient"
        ∧ (get_patient_history store pid).data = []) := by
  have hperm := List.perm_insertionSort histLE
    (List.filter (fun p => p.2.patient_id == pid) store)
  have hsort := List.sorted_insertionSort histLE
    (List.filter (fun p => p.2.patient_id == pid) store)
  by_cases hN : List.insertionSort histLE
      (List.filter (fun p => p.2.patient_id == pid) store) = []
  · have hfil : List.filter (fun p => p.2.patient_id == pid) store = [] := by
      rw [hN] at hperm
      exact hperm.symm.eq_nil
    refine ⟨?_, ?_, ?_, ?_⟩
    · simp [get_patient_history, hN]
    · rw [hfil]
      simp [get_patient_history, hN]
    · simp [get_patient_history, hN]
    · intro _
      simp [get_patient_history, hN]
  · refine ⟨?_, ?_, ?_, ?_⟩
    · simp [get_patient_history, hN]
    · simpa [get_patient_history, hN] using hperm
    · simpa [get_patient_history, hN] using hsort
    · intro hfil
      exact absurd (by rw [hfil]; rfl) hN

/-- A concrete store realizing the ordering example from the specification:
three records of patient `p1` with visit dates 2024-01-01, 2024-03-05 and
2024-02-10, plus a record of another patient. -/
def store3 : Store :=
  [("a1", { rec0 with visit_date := "2024-01-01" }),
   ("a2", { rec0 with visit_date := "2024-03-05" }),
   ("a3", { rec0 with visit_date := "2024-02-10" }),
   ("b1", { rec0 with patient_id := "p2", visit_date := "2024-04-01" })]

theorem C6_patient_history_witness :
    (get_patient_history store3 "p1").status = "success"
    ∧ ((get_patient_history store3 "p1").data).Perm
        (List.filter (fun p => p.2.patient_id == "p1") store3)
    ∧ List.Sorted histLE (get_patient_history store3 "p1").data
    ∧ (List.filter (fun p => p.2.patient_id == "p1") store3 = [] →
        (get_patient_history store3 "p1").message = some "No records found for this patient"
        ∧ (get_patient_history store3 "p1").data = []) :=
  C6_patient_history store3 "p1"

/-- Sanity check of the sort on the specification's own example: the three
`p1` records come back in the order 2024-03-05, 2024-02-10, 2024-01-01, each
with its id, and the other patient's record is filtered out. -/
theorem patient_history_ordering_example :
    (get_patient_history store3 "p1").data =
      [("a2", { rec0 with visit_date := "2024-03-05" }),
       ("a3", { rec0 with visit_date := "2024-02-10" }),
       ("a1", { rec0 with visit_date := "2024-01-01" })] := by
  decide

/-- Sanity check: an unknown patient gets the empty-result success body. -/
theorem patient_history_empty_example :
    (get_patient_history store3 "p7").message = some "No records found for this patient"
    ∧ (get_patient_history store3 "p7").data = [] := by
  constructor
  · decide
  · decide

/-- C7 (confirmed): in every store state reachable through the service's
operations from the empty collection, every record's `status` is either
`"pending_diagnosis"` (given at creation) or `"completed"` (the only status
any operation ever writes afterwards, via an update-diagnosis on an existing
id). -/
theorem C7_status_invariant {s : Store} (h : Reachable s) :
    ∀ p ∈ s, p.2.status = "pending_diagnosis" ∨ p.2.status = "completed" := by
  induction h with
  | init =>
    intro p hp
    simp at hp
  | create env req hr ih =>
    intro p hp
    simp only [create_summary] at hp
    rcases List.mem_append.mp hp with hp | hp
    · exact ih p hp
    · rw [List.mem_singleton] at hp
      subst hp
      left
      rfl
  | update ts upd hr ih =>
    intro p hp
    simp only [update_diagnosis] at hp
    cases hl : lookupStore _ upd.document_id with
    | none =>
      rw [hl] at hp
      exact ih p hp
    | some r =>
      rw [hl] at hp
      rcases mem_updateStore hp with hp | ⟨q, hq, hpq⟩
      · exact ih p hp
      · subst hpq
        right
        rfl

/-- A concrete record as `create_summary` under `envFail` builds it for the
request `reqWs`: fallback summary, defaulted visit date, pending status. -/
def doc0 : VisitRecord :=
  { original_text := "a  b"
    summary := "a  b..."
    patient_id := "p1"
    visit_date := "2024-05-01T09:00:00"
    timestamp := 11
    diagnosis := ""
    status := "pending_diagnosis"
    updated_at := none }

theorem C7_status_invariant_witness :
    doc0.status = "pending_diagnosis" ∨ doc0.status = "completed" :=
  C7_status_invariant (Reachable.create envFail reqWs Reachable.init)
    ("d1", doc0) (by decide)
